import Mathlib

set_option maxRecDepth 100000

/-!
Verification development for the Ideas Vault collaborative discovery core
(`src/app/actions/discovery.ts` together with the
`config/discoveryPrompts` module, which the snapshot ships concatenated
into `src/scripts/setup_storage.sql`).

The definitions below are a shallow embedding of the discovery state
machine: the phase enumeration, the phase-transition detector, the
conversation orchestrator `sendDiscoveryMessage`, the lifecycle operations
`skipDiscovery`, `advanceDiscoveryPhase`, `forceSynthesis`,
`getSessionSummary`, and the JSON.parse-based synthesis handling.

Conventions of the embedding:
* JavaScript strings are Lean `String`s; `toLowerCase`/`includes` are
  modelled character-wise on `String.data` (ASCII lowering, substring
  containment).
* `JSON.parse` is modelled by an executable recursive-descent parser
  `jsonParse` returning `Option Json` (`none` = the exception branch).
  JSON numbers are kept exactly as mantissa and decimal exponent.
* The Supabase row is a `Session` record; an `.update(...)` call is an
  `UpdatePatch` of optional fields (a field that is `none` was absent
  from the update object, mirroring `JSON.stringify` dropping
  `undefined` keys).
* The model client is an oracle argument: `Option (Option String)` -
  outer `none` is a thrown provider error, inner option is the nullable
  `message.content`.
-/

/-- ASCII lower-casing of one character, mirroring what
`String.prototype.toLowerCase` does on the ASCII range. -/
def lowerChar (c : Char) : Char :=
  if 'A' ≤ c ∧ c ≤ 'Z' then Char.ofNat (c.toNat + 32) else c

/-- Model of `s.toLowerCase()`. -/
def strToLower (s : String) : String :=
  String.mk (s.data.map lowerChar)

/-- Boolean substring containment on character lists: the computational
content of `String.prototype.includes`. -/
def containsSub (hay pat : List Char) : Bool :=
  hay.tails.any (fun t => pat.isPrefixOf t)

/-- Model of `hay.includes(pat)` for JavaScript strings. -/
def strIncludes (hay pat : String) : Bool :=
  containsSub hay.data pat.data

/-- The five discovery phases: `DISCOVERY_PHASES` from the
`config/discoveryPrompts` module (shipped in the snapshot inside
`src/scripts/setup_storage.sql`, which concatenates that module). -/
inductive DiscoveryPhase where
  | vision
  | gaps
  | founder_fit
  | synthesis
  | complete
deriving DecidableEq, Repr

/-- Position of a phase in the total order
`vision < gaps < founder_fit < synthesis < complete`. -/
def phaseIdx : DiscoveryPhase → Nat
  | DiscoveryPhase.vision => 0
  | DiscoveryPhase.gaps => 1
  | DiscoveryPhase.founder_fit => 2
  | DiscoveryPhase.synthesis => 3
  | DiscoveryPhase.complete => 4

/-- Immediate successor in the phase order (`complete` is terminal). -/
def phaseSucc : DiscoveryPhase → DiscoveryPhase
  | DiscoveryPhase.vision => DiscoveryPhase.gaps
  | DiscoveryPhase.gaps => DiscoveryPhase.founder_fit
  | DiscoveryPhase.founder_fit => DiscoveryPhase.synthesis
  | DiscoveryPhase.synthesis => DiscoveryPhase.complete
  | DiscoveryPhase.complete => DiscoveryPhase.complete

/-- The `vision_to_gaps` phrase list of `PHASE_TRANSITION_SIGNALS`,
embedded verbatim from the `config/discoveryPrompts` module
(`src/scripts/setup_storage.sql`, which concatenates that module). -/
def PHASE_TRANSITION_SIGNALS.vision_to_gaps : List String :=
  ["clear picture of your vision", "ready to explore", "deeper questions",
   "understand your vision"]

/-- The `gaps_to_founder_fit` phrase list of `PHASE_TRANSITION_SIGNALS`,
embedded verbatim from the same module. -/
def PHASE_TRANSITION_SIGNALS.gaps_to_founder_fit : List String :=
  ["great areas to validate", "understand your position", "as a founder"]

/-- The `founder_fit_to_synthesis` phrase list of
`PHASE_TRANSITION_SIGNALS`, embedded verbatim from the same module. -/
def PHASE_TRANSITION_SIGNALS.founder_fit_to_synthesis : List String :=
  ["sense of your strengths", "synthesize everything", "research prompt"]

/-- `detectPhaseTransition` from `src/app/actions/discovery.ts`: scan the
lower-cased assistant reply for the trigger phrases of the current phase and
advance to the next phase on a hit; otherwise stay. -/
def detectPhaseTransition (currentPhase : DiscoveryPhase) (aiResponse : String) :
    DiscoveryPhase :=
  let lowerResponse := strToLower aiResponse
  match currentPhase with
  | DiscoveryPhase.vision =>
    if PHASE_TRANSITION_SIGNALS.vision_to_gaps.any
        (fun signal => strIncludes lowerResponse (strToLower signal)) then
      DiscoveryPhase.gaps
    else DiscoveryPhase.vision
  | DiscoveryPhase.gaps =>
    if PHASE_TRANSITION_SIGNALS.gaps_to_founder_fit.any
        (fun signal => strIncludes lowerResponse (strToLower signal)) then
      DiscoveryPhase.founder_fit
    else DiscoveryPhase.gaps
  | DiscoveryPhase.founder_fit =>
    if PHASE_TRANSITION_SIGNALS.founder_fit_to_synthesis.any
        (fun signal => strIncludes lowerResponse (strToLower signal)) then
      DiscoveryPhase.synthesis
    else DiscoveryPhase.founder_fit
  | DiscoveryPhase.synthesis => DiscoveryPhase.synthesis
  | DiscoveryPhase.complete => DiscoveryPhase.complete

/-- JSON values as produced by `JSON.parse`. A number is kept exactly as
mantissa and decimal exponent (value `m * 10 ^ e10`); the IEEE-754
rounding JavaScript applies is not modelled — all numbers appearing in
this development are small integers. -/
inductive Json where
  | null
  | bool (b : Bool)
  | num (m : Int) (e10 : Int)
  | str (s : String)
  | arr (elems : List Json)
  | obj (members : List (String × Json))

/-- Last-wins key lookup in the member list of a parsed object; `JSON.parse`
assigns duplicate keys in order, so the final value is the last one. -/
def lookupLast (l : List (String × Json)) (k : String) : Option Json :=
  l.foldl (fun acc p => if p.1 = k then some p.2 else acc) none

/-- Property access `j[k]` on a parsed value: `some v` when the key is
present on an object, `none` (JavaScript `undefined`) otherwise.
Accesses on `null` are guarded explicitly at each use site, since in
JavaScript they throw rather than yield `undefined`. -/
def jget (j : Json) (k : String) : Option Json :=
  match j with
  | Json.obj members => lookupLast members k
  | _ => none

/-- JavaScript truthiness of a parsed JSON value (`0` and `-0` are falsy,
as is the empty string). -/
def truthy : Json → Bool
  | Json.null => false
  | Json.bool b => b
  | Json.num m _ => decide (m ≠ 0)
  | Json.str s => decide (s ≠ "")
  | Json.arr _ => true
  | Json.obj _ => true

/-- JSON insignificant whitespace. -/
def isJsonWs (c : Char) : Bool :=
  c = ' ' || c = '\t' || c = '\n' || c = '\r'

/-- Drop leading JSON whitespace. -/
def skipWs : List Char → List Char
  | [] => []
  | c :: cs => if isJsonWs c then skipWs cs else c :: cs

/-- Numeric value of a decimal digit run. -/
def digitsToNat (ds : List Char) : Nat :=
  ds.foldl (fun n c => n * 10 + (c.toNat - 48)) 0

/-- Assemble mantissa and decimal exponent from sign, integer part,
fraction digits and a (signed) written exponent. -/
def numOfParts (neg : Bool) (ip : Nat) (fs : List Char) (esign : Bool)
    (e : Nat) : Int × Int :=
  let mAbs : Int := (ip * 10 ^ fs.length + digitsToNat fs : Nat)
  let m : Int := if neg then -mAbs else mAbs
  let e10 : Int := (if esign then -(e : Int) else (e : Int)) - (fs.length : Int)
  (m, e10)

/-- Parse the optional exponent suffix of a JSON number, then finish. -/
def pNumTail (neg : Bool) (ip : Nat) (fs : List Char) :
    List Char → Option ((Int × Int) × List Char)
  | 'e' :: r =>
    let p : Bool × List Char :=
      match r with
      | '+' :: rr => (false, rr)
      | '-' :: rr => (true, rr)
      | _ => (false, r)
    let es := p.2.takeWhile (fun d => d.isDigit)
    if es.isEmpty then none
    else some (numOfParts neg ip fs p.1 (digitsToNat es),
               p.2.dropWhile (fun d => d.isDigit))
  | 'E' :: r =>
    let p : Bool × List Char :=
      match r with
      | '+' :: rr => (false, rr)
      | '-' :: rr => (true, rr)
      | _ => (false, r)
    let es := p.2.takeWhile (fun d => d.isDigit)
    if es.isEmpty then none
    else some (numOfParts neg ip fs p.1 (digitsToNat es),
               p.2.dropWhile (fun d => d.isDigit))
  | rest => some (numOfParts neg ip fs false 0, rest)

/-- Parse the optional fraction of a JSON number. -/
def pNumFrac (neg : Bool) (ip : Nat) : List Char → Option ((Int × Int) × List Char)
  | '.' :: r =>
    let fs := r.takeWhile (fun d => d.isDigit)
    if fs.isEmpty then none
    else pNumTail neg ip fs (r.dropWhile (fun d => d.isDigit))
  | rest => pNumTail neg ip [] rest

/-- Parse a JSON number (no leading zeros, optional minus sign, optional
fraction and exponent), as `JSON.parse` accepts it. -/
def pNumber (cs : List Char) : Option ((Int × Int) × List Char) :=
  let sp : Bool × List Char :=
    match cs with
    | '-' :: r => (true, r)
    | _ => (false, cs)
  match sp.2 with
  | [] => none
  | c :: r =>
    if c = '0' then pNumFrac sp.1 0 r
    else if c.isDigit then
      pNumFrac sp.1 (digitsToNat (sp.2.takeWhile (fun d => d.isDigit)))
        (sp.2.dropWhile (fun d => d.isDigit))
    else none

/-- Value of a hexadecimal digit. -/
def hexVal (c : Char) : Option Nat :=
  if c.isDigit then some (c.toNat - 48)
  else if 'a' ≤ c ∧ c ≤ 'f' then some (c.toNat - 87)
  else if 'A' ≤ c ∧ c ≤ 'F' then some (c.toNat - 55)
  else none

/-- Parse the body of a JSON string after the opening quote: ordinary
characters, escape sequences, and `\uXXXX`; raw control characters and
unterminated strings are rejected, as `JSON.parse` rejects them. -/
def pStrBody : Nat → List Char → List Char → Option (String × List Char)
  | 0, _, _ => none
  | Nat.succ fuel, cs, acc =>
    match cs with
    | [] => none
    | '"' :: rest => some (String.mk acc.reverse, rest)
    | '\\' :: rest =>
      match rest with
      | [] => none
      | e :: rest2 =>
        if e = '"' then pStrBody fuel rest2 ('"' :: acc)
        else if e = '\\' then pStrBody fuel rest2 ('\\' :: acc)
        else if e = '/' then pStrBody fuel rest2 ('/' :: acc)
        else if e = 'b' then pStrBody fuel rest2 ('\x08' :: acc)
        else if e = 'f' then pStrBody fuel rest2 ('\x0c' :: acc)
        else if e = 'n' then pStrBody fuel rest2 ('\n' :: acc)
        else if e = 'r' then pStrBody fuel rest2 ('\r' :: acc)
        else if e = 't' then pStrBody fuel rest2 ('\t' :: acc)
        else if e = 'u' then
          match rest2 with
          | a :: b :: c :: d :: rest3 =>
            match hexVal a, hexVal b, hexVal c, hexVal d with
            | some ha, some hb, some hc, some hd =>
              pStrBody fuel rest3
                (Char.ofNat (((ha * 16 + hb) * 16 + hc) * 16 + hd) :: acc)
            | _, _, _, _ => none
          | _ => none
        else none
    | c :: rest =>
      if c.toNat < 32 then none else pStrBody fuel rest (c :: acc)

mutual

/-- Parse one JSON value (fuelled recursive descent mirroring what
`JSON.parse` accepts). -/
def pVal : Nat → List Char → Option (Json × List Char)
  | 0, _ => none
  | Nat.succ fuel, cs0 =>
    let cs := skipWs cs0
    match cs with
    | [] => none
    | c :: rest =>
      if c = 'n' then
        match rest with
        | 'u' :: 'l' :: 'l' :: r => some (Json.null, r)
        | _ => none
      else if c = 't' then
        match rest with
        | 'r' :: 'u' :: 'e' :: r => some (Json.bool true, r)
        | _ => none
      else if c = 'f' then
        match rest with
        | 'a' :: 'l' :: 's' :: 'e' :: r => some (Json.bool false, r)
        | _ => none
      else if c = '"' then
        match pStrBody (rest.length + 1) rest [] with
        | some (s, r) => some (Json.str s, r)
        | none => none
      else if c = '[' then pElems fuel rest true []
      else if c = '\x7b' then pMembers fuel rest true []
      else
        match pNumber cs with
        | some ((m, e10), r) => some (Json.num m e10, r)
        | none => none

/-- Parse array elements after `[` (or after a comma). -/
def pElems : Nat → List Char → Bool → List Json → Option (Json × List Char)
  | 0, _, _, _ => none
  | Nat.succ fuel, cs0, isFirst, acc =>
    let cs := skipWs cs0
    match cs with
    | ']' :: r =>
      if isFirst then some (Json.arr [], r)
      else
        match pVal fuel cs with
        | none => none
        | some (v, r1) => pElemsSep fuel r1 (v :: acc)
    | _ =>
      match pVal fuel cs with
      | none => none
      | some (v, r1) => pElemsSep fuel r1 (v :: acc)

/-- After one array element: a comma continues, `]` closes. -/
def pElemsSep : Nat → List Char → List Json → Option (Json × List Char)
  | 0, _, _ => none
  | Nat.succ fuel, cs0, acc =>
    match skipWs cs0 with
    | ',' :: r => pElems fuel r false acc
    | ']' :: r => some (Json.arr acc.reverse, r)
    | _ => none

/-- Parse object members after an opening brace (or after a comma). -/
def pMembers : Nat → List Char → Bool → List (String × Json) →
    Option (Json × List Char)
  | 0, _, _, _ => none
  | Nat.succ fuel, cs0, isFirst, acc =>
    let cs := skipWs cs0
    match cs with
    | '\x7d' :: r =>
      if isFirst then some (Json.obj [], r) else none
    | '"' :: r =>
      match pStrBody (r.length + 1) r [] with
      | none => none
      | some (k, r1) =>
        match skipWs r1 with
        | ':' :: r2 =>
          match pVal fuel r2 with
          | none => none
          | some (v, r3) =>
            match skipWs r3 with
            | ',' :: r4 => pMembers fuel r4 false ((k, v) :: acc)
            | '\x7d' :: r4 => some (Json.obj ((k, v) :: acc).reverse, r4)
            | _ => none
        | _ => none
    | _ => none

end

/-- Model of `JSON.parse`: `some` on success, `none` where JavaScript
throws a `SyntaxError` (trailing non-whitespace also rejects). -/
def jsonParse (s : String) : Option Json :=
  match pVal (s.data.length + 1) s.data with
  | some (j, rest) =>
    match skipWs rest with
    | [] => some j
    | _ => none
  | none => none

/-- One transcript entry (`messageSchema`): role, content, timestamp. -/
structure Message where
  role : String
  content : String
  timestamp : String
deriving DecidableEq, Repr

/-- A `discovery_sessions` row, restricted to the columns the discovery
actions read or write. Nullable JSON columns (`founder_fit`,
`refined_prompt`) are `Json` with `Json.null` for SQL NULL; the nullable
timestamp `completed_at` is an `Option`. -/
structure Session where
  messages : List Message
  current_phase : DiscoveryPhase
  founder_fit : Json
  refined_prompt : Json
  status : String
  completed_at : Option String

/-- One Supabase `.update({...})` payload: `none` means the key was absent
from the update object (in particular, a JavaScript `undefined` value is
dropped by `JSON.stringify` and leaves the column untouched). -/
structure UpdatePatch where
  messages : Option (List Message) := none
  current_phase : Option DiscoveryPhase := none
  refined_prompt : Option Json := none
  founder_fit : Option Json := none
  status : Option String := none
  completed_at : Option String := none

/-- Applying an update payload to the stored row. -/
def applyPatch (s : Session) (p : UpdatePatch) : Session :=
  { messages := p.messages.getD s.messages
    current_phase := p.current_phase.getD s.current_phase
    refined_prompt := p.refined_prompt.getD s.refined_prompt
    founder_fit := p.founder_fit.getD s.founder_fit
    status := p.status.getD s.status
    completed_at :=
      match p.completed_at with
      | some t => some t
      | none => s.completed_at }

/-- The inputs of one `sendDiscoveryMessage` call that are external to the
session row: the user text, the timestamps taken by the three
`new Date()` calls, and the model-client outcome (outer `none`: the
provider call threw; inner option: the nullable `message.content`). -/
structure SendInput where
  userMessage : String
  userTimestamp : String
  aiTimestamp : String
  completedTimestamp : String
  ai : Option (Option String)

/-- `response.choices[0].message.content || fallback`: a null or empty
content falls back to the apology text. -/
def aiContentOf (content : Option String) : String :=
  match content with
  | some s =>
    if s = "" then "I apologize, I encountered an issue. Could you repeat that?"
    else s
  | none => "I apologize, I encountered an issue. Could you repeat that?"

/-- `synthesisOutput.fullPrompt || synthesisOutput`: the stored
`refined_prompt` value. -/
def refinedPromptOf (out : Json) : Json :=
  match jget out "fullPrompt" with
  | some fp => if truthy fp then fp else out
  | none => out

/-- The value `sendDiscoveryMessage` returns to its caller. -/
structure SendResult where
  response : String
  currentPhase : DiscoveryPhase
  isComplete : Bool
  synthesisOutput : Json
  messageCount : Nat

/-- `sendDiscoveryMessage` from `src/app/actions/discovery.ts`, as a
function of the fetched row and the external inputs of the call. It returns
the caller-visible result together with the update payload persisted on
success; a thrown error is `Except.error` with the thrown message, and
then nothing is persisted. -/
def sendDiscoveryMessage (fetched : Option Session) (input : SendInput) :
    Except String (SendResult × UpdatePatch) :=
  match fetched with
  | none => Except.error "Session not found"
  | some session =>
    let currentPhase := session.current_phase
    let userMsg : Message :=
      { role := "user", content := input.userMessage,
        timestamp := input.userTimestamp }
    let messages1 := session.messages ++ [userMsg]
    match input.ai with
    | none => Except.error "Failed to process message"
    | some content =>
      let aiContent := aiContentOf content
      let aiMsg : Message :=
        { role := "assistant", content := aiContent,
          timestamp := input.aiTimestamp }
      let messages2 := messages1 ++ [aiMsg]
      let pr : DiscoveryPhase × Json :=
        if currentPhase = DiscoveryPhase.synthesis then
          match jsonParse aiContent with
          | some out => (DiscoveryPhase.complete, out)
          | none => (currentPhase, Json.null)
        else (detectPhaseTransition currentPhase aiContent, Json.null)
      let nextPhase := pr.1
      let synthesisOutput := pr.2
      let patch : UpdatePatch :=
        if truthy synthesisOutput then
          { messages := some messages2
            current_phase := some nextPhase
            refined_prompt := some (refinedPromptOf synthesisOutput)
            founder_fit := jget synthesisOutput "founderFit"
            status := some "completed"
            completed_at := some input.completedTimestamp }
        else
          { messages := some messages2, current_phase := some nextPhase }
      Except.ok
        ({ response := aiContent
           currentPhase := nextPhase
           isComplete := decide (nextPhase = DiscoveryPhase.complete)
           synthesisOutput := synthesisOutput
           messageCount := messages2.length }, patch)

/-- The session row after one `sendDiscoveryMessage` call: the update
payload is applied on success, and an error leaves the row untouched. -/
def sendOnSession (s : Session) (input : SendInput) : Session :=
  match sendDiscoveryMessage (some s) input with
  | Except.ok (_, patch) => applyPatch s patch
  | Except.error _ => s

/-- A sequence of `sendDiscoveryMessage` calls on one session. -/
def runSends (s : Session) (inputs : List SendInput) : Session :=
  inputs.foldl sendOnSession s

/-- `skipDiscovery`: mark the session skipped with the current time; the
update touches no other column. -/
def skipDiscovery (fetched : Option Session) (now : String) :
    Except String UpdatePatch :=
  match fetched with
  | none => Except.error "Failed to skip discovery"
  | some _ => Except.ok { status := some "skipped", completed_at := some now }

/-- The session row after a successful `skipDiscovery`. -/
def applySkip (s : Session) (now : String) : Session :=
  applyPatch s { status := some "skipped", completed_at := some now }

/-- `advanceDiscoveryPhase`: overwrite `current_phase` with the target. -/
def advanceDiscoveryPhase (fetched : Option Session)
    (targetPhase : DiscoveryPhase) : Except String UpdatePatch :=
  match fetched with
  | none => Except.error "Failed to advance phase"
  | some _ => Except.ok { current_phase := some targetPhase }

/-- `content || "\x7b\x7d"` in `forceSynthesis`: a null or empty content
falls back to the empty-object text. -/
def forceContentText (content : Option String) : String :=
  match content with
  | some s => if s = "" then "\x7b\x7d" else s
  | none => "\x7b\x7d"

/-- `forceSynthesis` from `src/app/actions/discovery.ts`: one model call
on the whole transcript, `JSON.parse(content || "\x7b\x7d")`, and on
success the completion update. Any failure inside the `try` (provider
error, parse error, or the property access throwing on a `null` parse)
becomes the thrown `Failed to generate synthesis`. -/
def forceSynthesis (fetched : Option Session)
    (clientResult : Option (Option String)) (now : String) :
    Except String (Json × UpdatePatch) :=
  match fetched with
  | none => Except.error "Session not found"
  | some _session =>
    match clientResult with
    | none => Except.error "Failed to generate synthesis"
    | some content =>
      let text := forceContentText content
      match jsonParse text with
      | none => Except.error "Failed to generate synthesis"
      | some output =>
        match output with
        | Json.null => Except.error "Failed to generate synthesis"
        | _ =>
          Except.ok (output,
            { refined_prompt := some (refinedPromptOf output)
              founder_fit := jget output "founderFit"
              current_phase := some DiscoveryPhase.complete
              status := some "completed"
              completed_at := some now })

/-- `session.refined_prompt?.tldr || null` in `getSessionSummary`. -/
def tldrOf (rp : Json) : Json :=
  match rp with
  | Json.null => Json.null
  | _ =>
    match jget rp "tldr" with
    | some t => if truthy t then t else Json.null
    | none => Json.null

/-- What `getSessionSummary` returns for a completed session. -/
structure SessionSummary where
  tldr : Json
  fullPrompt : Json
  founderFit : Json
  messageCount : Nat

/-- `getSessionSummary`: `none` unless the session exists and its status
is `completed`. -/
def getSessionSummary (fetched : Option Session) : Option SessionSummary :=
  match fetched with
  | none => none
  | some session =>
    if session.status = "completed" then
      some { tldr := tldrOf session.refined_prompt
             fullPrompt :=
               if truthy session.refined_prompt then session.refined_prompt
               else Json.null
             founderFit :=
               if truthy session.founder_fit then session.founder_fit
               else Json.null
             messageCount := session.messages.length }
    else none

/-- The four mutating operations a caller can run against one session. -/
inductive DiscoveryOp where
  | send (input : SendInput)
  | skip (now : String)
  | advance (target : DiscoveryPhase)
  | force (clientResult : Option (Option String)) (now : String)

/-- Effect of one operation on the stored row (an operation that throws
persists nothing). -/
def applyOp (s : Session) : DiscoveryOp → Session
  | DiscoveryOp.send input => sendOnSession s input
  | DiscoveryOp.skip now => applySkip s now
  | DiscoveryOp.advance t => applyPatch s { current_phase := some t }
  | DiscoveryOp.force cr now =>
    match forceSynthesis (some s) cr now with
    | Except.ok (_, p) => applyPatch s p
    | Except.error _ => s

/-- A call sequence against one session. -/
def runOps (s : Session) (ops : List DiscoveryOp) : Session :=
  ops.foldl applyOp s

/-- The welcome message seeded into every new session:
`DISCOVERY_WELCOME_MESSAGE` from the `config/discoveryPrompts` module
(`src/scripts/setup_storage.sql`; the wave emoji appears there as
mojibake and is restored here). -/
def DISCOVERY_WELCOME_MESSAGE : String :=
  "Hey! 👋 I\x27m here to help you refine your idea before we dive into research.\n\nThis will be a quick conversation where I\x27ll ask you some questions to understand your vision, identify any gaps we should address, and see how well-positioned you are to execute on this.\n\nAt the end, I\x27ll generate an optimized research prompt that\x27s tailored to what we discover together.\n\n**Let\x27s start simple: Tell me about your idea in whatever way feels natural.** What problem are you trying to solve, and what\x27s your approach?"

/-- The row `startDiscoverySession` inserts: welcome transcript, phase
`vision`, status `active`, no synthesis fields. -/
def startDiscoverySession (createdAt : String) : Session :=
  { messages := [{ role := "assistant", content := DISCOVERY_WELCOME_MESSAGE,
                   timestamp := createdAt }]
    current_phase := DiscoveryPhase.vision
    founder_fit := Json.null
    refined_prompt := Json.null
    status := "active"
    completed_at := none }

/-- A field holding text. -/
def isTextField : Option Json → Bool
  | some (Json.str _) => true
  | _ => false

/-- A field holding a sequence of text. -/
def isTextArrField : Option Json → Bool
  | some (Json.arr l) =>
    l.all (fun x => match x with | Json.str _ => true | _ => false)
  | _ => false

/-- A field holding an integer in `1..10` (the `founderFitScore` range). -/
def isScoreField : Option Json → Bool
  | some (Json.num m e10) =>
    if 0 ≤ e10 then
      decide (1 ≤ m * 10 ^ e10.toNat ∧ m * 10 ^ e10.toNat ≤ 10)
    else
      decide ((10 ^ (-e10).toNat : Int) ∣ m ∧
              1 ≤ m / 10 ^ (-e10).toNat ∧ m / 10 ^ (-e10).toNat ≤ 10)
  | _ => false

/-- Modelled from the spec: the `tldr` shape of `SynthesisOutput`
(section 3 of the specification); the repository has no synthesis
schema validator in code to embed. -/
def specValidTldr : Option Json → Bool
  | some (Json.obj m) =>
    let o := Json.obj m
    isTextField (jget o "refinedIdea") && isTextField (jget o "targetMarket") &&
    isTextField (jget o "keyDifferentiator") && isTextArrField (jget o "mainRisks") &&
    isScoreField (jget o "founderFitScore")
  | _ => false

/-- Modelled from the spec: the `targetCustomer` shape of
`SynthesisOutput.fullPrompt`. -/
def specValidTargetCustomer : Option Json → Bool
  | some (Json.obj m) =>
    let o := Json.obj m
    isTextField (jget o "profile") && isTextArrField (jget o "painPoints") &&
    isTextField (jget o "currentSolutions")
  | _ => false

/-- Modelled from the spec: the `fullPrompt` shape of `SynthesisOutput`. -/
def specValidFullPrompt : Option Json → Bool
  | some (Json.obj m) =>
    let o := Json.obj m
    isTextField (jget o "problemStatement") &&
    specValidTargetCustomer (jget o "targetCustomer") &&
    isTextField (jget o "valueProposition") &&
    isTextArrField (jget o "hypotheses") &&
    isTextArrField (jget o "competitiveResearch") &&
    isTextArrField (jget o "marketIndicators") &&
    isTextArrField (jget o "evaluationCriteria")
  | _ => false

/-- Modelled from the spec: the `founderFit` shape of `SynthesisOutput`. -/
def specValidFounderFit : Option Json → Bool
  | some (Json.obj m) =>
    let o := Json.obj m
    (match jget o "technicalSkills" with
     | some (Json.obj ts) =>
       isTextArrField (jget (Json.obj ts) "has") &&
       isTextArrField (jget (Json.obj ts) "needs")
     | _ => false) &&
    isTextField (jget o "domainExpertise") &&
    (match jget o "resources" with
     | some (Json.obj rs) =>
       isTextField (jget (Json.obj rs) "time") &&
       isTextField (jget (Json.obj rs) "capital") &&
       isTextField (jget (Json.obj rs) "network")
     | _ => false) &&
    isTextField (jget o "motivation") &&
    isTextArrField (jget o "learningPath") &&
    isTextArrField (jget o "hireRecommendations")
  | _ => false

/-- Modelled from the spec: field-by-field schema validity of a parsed
value against `SynthesisOutput` (section 3 of the specification). This is
the specification-side contract the synthesis parser is claimed to
enforce; it has no counterpart in the repository code. -/
def specValidSynthesisOutput (j : Json) : Bool :=
  specValidTldr (jget j "tldr") && specValidFullPrompt (jget j "fullPrompt") &&
  specValidFounderFit (jget j "founderFit")

/-- Schema validity of a parse outcome (`none` parses are invalid). -/
def specValidSynthesisParse : Option Json → Bool
  | some j => specValidSynthesisOutput j
  | none => false

/-- Wrapping a text in a markdown code fence with a language tag. -/
def fenceWrapJson (t : String) : String := "```json\n" ++ t ++ "\n```"

/-- Wrapping a text in a bare markdown code fence. -/
def fenceWrapPlain (t : String) : String := "```\n" ++ t ++ "\n```"

/-- Whether a call returned normally (no exception reached the caller). -/
def isOkE (r : Except String (SendResult × UpdatePatch)) : Bool :=
  match r with
  | Except.ok _ => true
  | Except.error _ => false

/-- A `fullPrompt` object whose `tldr` member is absent or falsy (the
shape the synthesis schema gives it). -/
def tldrFalsy (fp : Json) : Bool :=
  match jget fp "tldr" with
  | none => true
  | some t => !(truthy t)

/-- A sample send input whose model client returns `text`. -/
def mkSendInput (text : String) : SendInput :=
  { userMessage := "go ahead"
    userTimestamp := "2026-01-05T10:00:00Z"
    aiTimestamp := "2026-01-05T10:00:05Z"
    completedTimestamp := "2026-01-05T10:00:06Z"
    ai := some (some text) }

/-- A sample send input whose model client call throws. -/
def aiFailInput : SendInput :=
  { userMessage := "go ahead"
    userTimestamp := "2026-01-05T10:00:00Z"
    aiTimestamp := "2026-01-05T10:00:05Z"
    completedTimestamp := "2026-01-05T10:00:06Z"
    ai := none }

/-- A sample session sitting in the `synthesis` phase. -/
def synSession : Session :=
  { messages := [{ role := "assistant", content := "Let me synthesize.",
                   timestamp := "2026-01-05T09:59:00Z" }]
    current_phase := DiscoveryPhase.synthesis
    founder_fit := Json.null
    refined_prompt := Json.null
    status := "active"
    completed_at := none }

/-- A synthesis document matching the `SynthesisOutput` schema except that
its `founderFitScore` is the given numeral text. -/
def synthesisDoc (score : String) : String :=
  "\x7b\"tldr\":\x7b\"refinedIdea\":\"x\",\"targetMarket\":\"x\",\"keyDifferentiator\":\"x\",\"mainRisks\":[\"a\",\"b\",\"c\"],\"founderFitScore\":" ++
  score ++
  "\x7d,\"fullPrompt\":\x7b\"problemStatement\":\"x\",\"targetCustomer\":\x7b\"profile\":\"x\",\"painPoints\":[\"p\"],\"currentSolutions\":\"x\"\x7d,\"valueProposition\":\"x\",\"hypotheses\":[\"h\"],\"competitiveResearch\":[\"c\"],\"marketIndicators\":[\"m\"],\"evaluationCriteria\":[\"e\"]\x7d,\"founderFit\":\x7b\"technicalSkills\":\x7b\"has\":[\"a\"],\"needs\":[\"b\"]\x7d,\"domainExpertise\":\"x\",\"resources\":\x7b\"time\":\"x\",\"capital\":\"x\",\"network\":\"x\"\x7d,\"motivation\":\"x\",\"learningPath\":[\"l\"],\"hireRecommendations\":[\"r\"]\x7d\x7d"

/-- A parseable synthesis reply with neither `fullPrompt` nor
`founderFit` members. -/
def bareObjDoc : String := "\x7b\"x\": 1\x7d"

/-- A parseable synthesis reply whose `fullPrompt` member is `null` and
which carries a top-level `tldr` object. -/
def nullFullPromptDoc : String :=
  "\x7b\"fullPrompt\": null, \"tldr\": \x7b\"a\": 1\x7d\x7d"

/-- The worked transition example from the specification. -/
def visionExampleReply : String :=
  "I think I have a clear picture of your vision. Ready to explore some deeper questions?"

/-- A call sequence that completes a session with a schema-valid
synthesis document. -/
def completingOps : List DiscoveryOp :=
  [DiscoveryOp.advance DiscoveryPhase.synthesis,
   DiscoveryOp.send (mkSendInput (synthesisDoc "7"))]

/-- A call sequence that completes a session with a synthesis reply that
has no `founderFit` member, then forces the phase back to `vision`. -/
def completedNoFitOps : List DiscoveryOp :=
  [DiscoveryOp.advance DiscoveryPhase.synthesis,
   DiscoveryOp.send (mkSendInput bareObjDoc),
   DiscoveryOp.advance DiscoveryPhase.vision]

/-! ## Lemmas and claim theorems -/

theorem truthy_ne_null (j : Json) (h : truthy j = true) : j ≠ Json.null := by
  intro heq
  subst heq
  simp [truthy] at h

theorem containsSub_iff (hay pat : List Char) :
    containsSub hay pat = true ↔ pat <:+: hay := by
  unfold containsSub
  rw [List.any_eq_true]
  constructor
  · rintro ⟨t, ht, hp⟩
    have hsuf : t <:+ hay := (List.mem_tails t hay).mp ht
    have hpre : pat <+: t := List.isPrefixOf_iff_prefix.mp hp
    exact hpre.isInfix.trans hsuf.isInfix
  · rintro ⟨s, t, rfl⟩
    refine ⟨pat ++ t, (List.mem_tails _ _).mpr ⟨s, ?_⟩, ?_⟩
    · simp
    · exact List.isPrefixOf_iff_prefix.mpr (List.prefix_append pat t)

theorem detectAux_iff (sigs : List String) (text : String) :
    (sigs.any (fun signal => strIncludes (strToLower text) (strToLower signal))
        = true) ↔
      ∃ signal ∈ sigs, (strToLower signal).data <:+: (strToLower text).data := by
  rw [List.any_eq_true]
  constructor
  · rintro ⟨sig, hm, hp⟩
    exact ⟨sig, hm, (containsSub_iff _ _).mp hp⟩
  · rintro ⟨sig, hm, hp⟩
    exact ⟨sig, hm, (containsSub_iff _ _).mpr hp⟩

theorem detectCase_iff (sigs : List String) (text : String)
    (hit stay : DiscoveryPhase) (hne : stay ≠ hit) :
    ((if sigs.any (fun signal => strIncludes (strToLower text) (strToLower signal))
        then hit else stay) = hit ↔
      ∃ signal ∈ sigs, (strToLower signal).data <:+: (strToLower text).data) := by
  rw [← detectAux_iff]
  cases hb : sigs.any (fun signal => strIncludes (strToLower text) (strToLower signal)) with
  | true => simp
  | false => simp [hne]

/-- Claim C1: for each of the phases `vision`, `gaps`, `founder_fit`, the
transition detector returns the immediate next phase exactly when the
lower-cased model output contains one of the (lower-cased)
trigger phrases as a substring, and otherwise returns the current phase
unchanged; in particular, on the worked example reply it advances
`vision` to `gaps`. -/
theorem detectPhaseTransition_matches_signals (text : String) :
    (detectPhaseTransition DiscoveryPhase.vision text = DiscoveryPhase.gaps ↔
      ∃ signal ∈ PHASE_TRANSITION_SIGNALS.vision_to_gaps,
        (strToLower signal).data <:+: (strToLower text).data) ∧
    (detectPhaseTransition DiscoveryPhase.vision text = DiscoveryPhase.gaps ∨
      detectPhaseTransition DiscoveryPhase.vision text = DiscoveryPhase.vision) ∧
    (detectPhaseTransition DiscoveryPhase.gaps text = DiscoveryPhase.founder_fit ↔
      ∃ signal ∈ PHASE_TRANSITION_SIGNALS.gaps_to_founder_fit,
        (strToLower signal).data <:+: (strToLower text).data) ∧
    (detectPhaseTransition DiscoveryPhase.gaps text = DiscoveryPhase.founder_fit ∨
      detectPhaseTransition DiscoveryPhase.gaps text = DiscoveryPhase.gaps) ∧
    (detectPhaseTransition DiscoveryPhase.founder_fit text = DiscoveryPhase.synthesis ↔
      ∃ signal ∈ PHASE_TRANSITION_SIGNALS.founder_fit_to_synthesis,
        (strToLower signal).data <:+: (strToLower text).data) ∧
    (detectPhaseTransition DiscoveryPhase.founder_fit text = DiscoveryPhase.synthesis ∨
      detectPhaseTransition DiscoveryPhase.founder_fit text = DiscoveryPhase.founder_fit) ∧
    detectPhaseTransition DiscoveryPhase.vision visionExampleReply = DiscoveryPhase.gaps := by
  have hv : detectPhaseTransition DiscoveryPhase.vision text =
      (if PHASE_TRANSITION_SIGNALS.vision_to_gaps.any
          (fun signal => strIncludes (strToLower text) (strToLower signal))
        then DiscoveryPhase.gaps else DiscoveryPhase.vision) := rfl
  have hg : detectPhaseTransition DiscoveryPhase.gaps text =
      (if PHASE_TRANSITION_SIGNALS.gaps_to_founder_fit.any
          (fun signal => strIncludes (strToLower text) (strToLower signal))
        then DiscoveryPhase.founder_fit else DiscoveryPhase.gaps) := rfl
  have hf : detectPhaseTransition DiscoveryPhase.founder_fit text =
      (if PHASE_TRANSITION_SIGNALS.founder_fit_to_synthesis.any
          (fun signal => strIncludes (strToLower text) (strToLower signal))
        then DiscoveryPhase.synthesis else DiscoveryPhase.founder_fit) := rfl
  refine ⟨?_, ?_, ?_, ?_, ?_, ?_, ?_⟩
  · rw [hv]
    exact detectCase_iff _ _ _ _ (by decide)
  · rw [hv]
    cases hb : PHASE_TRANSITION_SIGNALS.vision_to_gaps.any
        (fun signal => strIncludes (strToLower text) (strToLower signal)) <;> simp
  · rw [hg]
    exact detectCase_iff _ _ _ _ (by decide)
  · rw [hg]
    cases hb : PHASE_TRANSITION_SIGNALS.gaps_to_founder_fit.any
        (fun signal => strIncludes (strToLower text) (strToLower signal)) <;> simp
  · rw [hf]
    exact detectCase_iff _ _ _ _ (by decide)
  · rw [hf]
    cases hb : PHASE_TRANSITION_SIGNALS.founder_fit_to_synthesis.any
        (fun signal => strIncludes (strToLower text) (strToLower signal)) <;> simp
  · decide

/-- Claim C1, witness: the detector applied to the worked example reply
in the `vision` phase advances to `gaps`. -/
theorem detectPhaseTransition_matches_signals_witness :
    detectPhaseTransition DiscoveryPhase.vision visionExampleReply = DiscoveryPhase.gaps :=
  (detectPhaseTransition_matches_signals "").2.2.2.2.2.2

theorem detect_step (p : DiscoveryPhase) (text : String) :
    detectPhaseTransition p text = p ∨
      detectPhaseTransition p text = phaseSucc p := by
  cases p
  case vision => simp only [detectPhaseTransition, phaseSucc]; split <;> simp
  case gaps => simp only [detectPhaseTransition, phaseSucc]; split <;> simp
  case founder_fit => simp only [detectPhaseTransition, phaseSucc]; split <;> simp
  case synthesis => left; rfl
  case complete => left; rfl

theorem sendOnSession_ai_none (s : Session) (input : SendInput)
    (h : input.ai = none) : sendOnSession s input = s := by
  unfold sendOnSession sendDiscoveryMessage
  rw [h]

theorem sendOnSession_phase_eq (s : Session) (input : SendInput)
    (content : Option String) (h : input.ai = some content) :
    (sendOnSession s input).current_phase =
      (if s.current_phase = DiscoveryPhase.synthesis then
        match jsonParse (aiContentOf content) with
        | some _ => DiscoveryPhase.complete
        | none => s.current_phase
      else detectPhaseTransition s.current_phase (aiContentOf content)) := by
  simp only [sendOnSession, sendDiscoveryMessage, h, applyPatch]
  by_cases hsyn : s.current_phase = DiscoveryPhase.synthesis
  · simp only [if_pos hsyn]
    cases hp : jsonParse (aiContentOf content) with
    | some out => simp only [hp]; split <;> simp
    | none => simp [hp, truthy]
  · simp only [if_neg hsyn]
    simp [truthy]

theorem send_step_or (s : Session) (input : SendInput) :
    (sendOnSession s input).current_phase = s.current_phase ∨
      (sendOnSession s input).current_phase = phaseSucc s.current_phase := by
  cases hai : input.ai with
  | none => rw [sendOnSession_ai_none s input hai]; left; rfl
  | some content =>
    rw [sendOnSession_phase_eq s input content hai]
    by_cases hsyn : s.current_phase = DiscoveryPhase.synthesis
    · rw [if_pos hsyn]
      cases jsonParse (aiContentOf content) with
      | some out => right; rw [hsyn]; rfl
      | none => left; rfl
    · rw [if_neg hsyn]
      exact detect_step s.current_phase (aiContentOf content)

theorem phaseIdx_succ_le (p : DiscoveryPhase) :
    phaseIdx p ≤ phaseIdx (phaseSucc p) := by
  cases p <;> decide

/-- Claim C2: over any sequence of `sendDiscoveryMessage` calls on one
session (no forced advance, no reset), the phase index is non-decreasing
in the order `vision ≤ gaps ≤ founder_fit ≤ synthesis ≤ complete`, and
each single call either keeps the phase or moves it to its immediate
successor. -/
theorem sendMessage_phase_monotone :
    (∀ (s : Session) (inputs : List SendInput),
      phaseIdx s.current_phase ≤ phaseIdx (runSends s inputs).current_phase) ∧
    (∀ (s : Session) (input : SendInput),
      (sendOnSession s input).current_phase = s.current_phase ∨
        (sendOnSession s input).current_phase = phaseSucc s.current_phase) := by
  constructor
  · intro s inputs
    induction inputs generalizing s with
    | nil => exact le_refl _
    | cons i rest ih =>
      have h1 : phaseIdx s.current_phase ≤ phaseIdx (sendOnSession s i).current_phase := by
        rcases send_step_or s i with h | h
        · rw [h]
        · rw [h]; exact phaseIdx_succ_le _
      have h2 : runSends s (i :: rest) = runSends (sendOnSession s i) rest := rfl
      rw [h2]
      exact le_trans h1 (ih (sendOnSession s i))
  · exact send_step_or

/-- Claim C3 (amended): in the `synthesis` phase only a structural
`JSON.parse` failure is treated as a parse error — then the call still
returns normally, the phase stays `synthesis`, no synthesis field and no
status is set, and the malformed output is still appended as the
assistant message. Schema validity is never checked: any parseable
(truthy) JSON output — regardless of missing fields or an out-of-range
`founderFitScore` — advances the phase to `complete` and marks the
session completed. -/
theorem synthesis_parse_failure_behavior (s : Session) (input : SendInput)
    (text : String) (hphase : s.current_phase = DiscoveryPhase.synthesis)
    (hai : input.ai = some (some text)) (htext : ¬ text = "") :
    (jsonParse text = none →
      isOkE (sendDiscoveryMessage (some s) input) = true ∧
      (sendOnSession s input).current_phase = DiscoveryPhase.synthesis ∧
      (sendOnSession s input).founder_fit = s.founder_fit ∧
      (sendOnSession s input).refined_prompt = s.refined_prompt ∧
      (sendOnSession s input).status = s.status ∧
      (sendOnSession s input).messages =
        s.messages ++
          [{ role := "user", content := input.userMessage,
             timestamp := input.userTimestamp },
           { role := "assistant", content := text,
             timestamp := input.aiTimestamp }]) ∧
    (∀ out, jsonParse text = some out → truthy out = true →
      (sendOnSession s input).current_phase = DiscoveryPhase.complete ∧
      (sendOnSession s input).status = "completed") := by
  have hct : aiContentOf (some text) = text := by simp [aiContentOf, htext]
  refine ⟨fun hp => ?_, fun out hp ht => ?_⟩
  · simp [sendOnSession, sendDiscoveryMessage, hai, hct, hphase, hp, truthy,
      applyPatch, isOkE]
  · simp [sendOnSession, sendDiscoveryMessage, hai, hct, hphase, hp, ht,
      applyPatch]

/-- Claim C3, witness: an unparseable reply leaves a synthesis-phase
session in `synthesis` with status `active`, while a parseable but
schema-invalid reply (`founderFitScore` of 15) completes it. -/
theorem synthesis_parse_failure_behavior_witness :
    (sendOnSession synSession (mkSendInput "not json")).current_phase
        = DiscoveryPhase.synthesis ∧
    (sendOnSession synSession (mkSendInput "not json")).status = "active" ∧
    (sendOnSession synSession (mkSendInput (synthesisDoc "15"))).current_phase
        = DiscoveryPhase.complete := by
  have h1 := synthesis_parse_failure_behavior synSession (mkSendInput "not json")
    "not json" rfl rfl (by decide)
  have h2 := synthesis_parse_failure_behavior synSession
    (mkSendInput (synthesisDoc "15")) (synthesisDoc "15") rfl rfl (by decide)
  exact ⟨(h1.1 rfl).2.1, (h1.1 rfl).2.2.2.2.1,
    (h2.2 ((jsonParse (synthesisDoc "15")).getD Json.null) rfl rfl).1⟩

/-- Claim C3, counterexample: the schema-invalid synthesis output with
`founderFitScore = 15` parses structurally, so — contrary to the claim —
the phase does not remain `synthesis`: the session completes. -/
theorem synthesis_schema_not_validated_cex :
    specValidSynthesisParse (jsonParse (synthesisDoc "15")) = false ∧
    (sendOnSession synSession (mkSendInput (synthesisDoc "15"))).current_phase
        ≠ DiscoveryPhase.synthesis ∧
    (sendOnSession synSession (mkSendInput (synthesisDoc "15"))).current_phase
        = DiscoveryPhase.complete ∧
    (sendOnSession synSession (mkSendInput (synthesisDoc "15"))).status
        = "completed" := by
  refine ⟨rfl, ?_, rfl, rfl⟩
  rw [show (sendOnSession synSession (mkSendInput (synthesisDoc "15"))).current_phase
      = DiscoveryPhase.complete from rfl]
  decide

/-- Claim C4 (amended): fence-wrapping is never transparent to the
synthesis parse. `sendDiscoveryMessage` feeds the assistant text to
`JSON.parse` with no fence stripping, so a text wrapped in a markdown
code fence (with or without a language tag) always fails to parse; a
well-formed JSON text is accepted only unwrapped. -/
theorem synthesis_parse_rejects_fenced (t : String) :
    jsonParse (fenceWrapJson t) = none ∧ jsonParse (fenceWrapPlain t) = none :=
  ⟨rfl, rfl⟩

/-- Claim C4, counterexample: a well-formed JSON text matching the
`SynthesisOutput` schema parses when bare, but its fence-wrapped form
does not parse at all — the parse results differ, so fence-stripping is
not performed. -/
theorem synthesis_fence_not_stripped_cex :
    jsonParse (fenceWrapJson (synthesisDoc "7")) = none ∧
    (jsonParse (synthesisDoc "7")).isSome = true ∧
    specValidSynthesisParse (jsonParse (synthesisDoc "7")) = true :=
  ⟨rfl, rfl, rfl⟩

theorem refinedPromptOf_ne_null (out : Json) (h : out ≠ Json.null) :
    refinedPromptOf out ≠ Json.null := by
  unfold refinedPromptOf
  cases hj : jget out "fullPrompt" with
  | none => exact h
  | some fp =>
    show (if truthy fp = true then fp else out) ≠ Json.null
    by_cases ht : truthy fp = true
    · rw [if_pos ht]
      exact truthy_ne_null fp ht
    · rw [if_neg ht]
      exact h

theorem applyOp_preserves_rp (s : Session) (op : DiscoveryOp)
    (h : s.status = "completed" → s.refined_prompt ≠ Json.null) :
    (applyOp s op).status = "completed" →
      (applyOp s op).refined_prompt ≠ Json.null := by
  cases op with
  | skip now =>
    intro hc
    simp [applyOp, applySkip, applyPatch] at hc
  | advance t =>
    intro hc
    exact h hc
  | send input =>
    cases hai : input.ai with
    | none =>
      simp only [applyOp]
      rw [sendOnSession_ai_none s input hai]
      exact h
    | some content =>
      simp only [applyOp, sendOnSession, sendDiscoveryMessage, hai]
      by_cases hsyn : s.current_phase = DiscoveryPhase.synthesis
      · simp only [if_pos hsyn]
        cases hp : jsonParse (aiContentOf content) with
        | none =>
          simp only [hp, truthy, applyPatch]
          simp
          exact fun hc => h hc
        | some out =>
          by_cases ht : truthy out = true
          · simp only [hp, ht, if_pos ht, applyPatch]
            simp
            exact refinedPromptOf_ne_null out (truthy_ne_null out ht)
          · simp only [hp, if_neg ht, applyPatch]
            simp
            exact fun hc => h hc
      · simp only [if_neg hsyn, truthy, applyPatch]
        simp
        exact fun hc => h hc
  | force cr now =>
    simp only [applyOp]
    cases cr with
    | none =>
      simp only [forceSynthesis]
      exact h
    | some content =>
      cases hp : jsonParse (forceContentText content) with
      | none =>
        simp only [forceSynthesis, hp]
        exact h
      | some out =>
        cases out with
        | null =>
          simp only [forceSynthesis, hp]
          exact h
        | bool b =>
          simp only [forceSynthesis, hp, applyPatch]
          simp
          exact refinedPromptOf_ne_null _ (fun hh => Json.noConfusion hh)
        | num m e10 =>
          simp only [forceSynthesis, hp, applyPatch]
          simp
          exact refinedPromptOf_ne_null _ (fun hh => Json.noConfusion hh)
        | str st =>
          simp only [forceSynthesis, hp, applyPatch]
          simp
          exact refinedPromptOf_ne_null _ (fun hh => Json.noConfusion hh)
        | arr l =>
          simp only [forceSynthesis, hp, applyPatch]
          simp
          exact refinedPromptOf_ne_null _ (fun hh => Json.noConfusion hh)
        | obj l =>
          simp only [forceSynthesis, hp, applyPatch]
          simp
          exact refinedPromptOf_ne_null _ (fun hh => Json.noConfusion hh)

/-- Claim C5 (amended): in every state reachable from a fresh session by
the core operations, `status = "completed"` implies `refined_prompt` is
non-null. The other two conjuncts of the original claim are not
invariants of the code: `founder_fit` stays null when the completing
synthesis output has no truthy `founderFit` member, and a later
`advanceDiscoveryPhase` moves `current_phase` away from `complete` while
the status stays `completed`. -/
theorem completed_implies_refined_prompt (createdAt : String)
    (ops : List DiscoveryOp)
    (h : (runOps (startDiscoverySession createdAt) ops).status = "completed") :
    (runOps (startDiscoverySession createdAt) ops).refined_prompt ≠ Json.null := by
  have hinv : ∀ (s : Session) (l : List DiscoveryOp),
      (s.status = "completed" → s.refined_prompt ≠ Json.null) →
      ((runOps s l).status = "completed" →
        (runOps s l).refined_prompt ≠ Json.null) := by
    intro s l
    induction l generalizing s with
    | nil => exact fun h0 => h0
    | cons op rest ih =>
      intro h0
      exact ih (applyOp s op) (applyOp_preserves_rp s op h0)
  refine hinv _ ops (fun hc => ?_) h
  simp [startDiscoverySession] at hc

/-- Claim C5, witness: completing a fresh session through the synthesis
phase with a schema-valid document yields `status = "completed"` and a
non-null `refined_prompt`. -/
theorem completed_implies_refined_prompt_witness :
    (runOps (startDiscoverySession "2026-01-05T09:00:00Z") completingOps).status
        = "completed" ∧
    (runOps (startDiscoverySession "2026-01-05T09:00:00Z") completingOps).refined_prompt
        ≠ Json.null :=
  ⟨rfl, completed_implies_refined_prompt "2026-01-05T09:00:00Z" completingOps rfl⟩

/-- Claim C5, counterexample: after completing with a synthesis reply that
has no `founderFit` member and then forcing the phase back to `vision`,
the session has `status = "completed"` with `founder_fit` still null and
`current_phase ≠ complete` — refuting the claimed invariant. -/
theorem completed_invariant_cex :
    (runOps (startDiscoverySession "t0") completedNoFitOps).status = "completed" ∧
    (runOps (startDiscoverySession "t0") completedNoFitOps).founder_fit = Json.null ∧
    (runOps (startDiscoverySession "t0") completedNoFitOps).current_phase
        = DiscoveryPhase.vision ∧
    DiscoveryPhase.vision ≠ DiscoveryPhase.complete :=
  ⟨rfl, rfl, rfl, by decide⟩

/-- Claim C6: failed turns commit nothing. If the model client call in
`sendDiscoveryMessage` throws, the call surfaces the error and the
persisted row is identical to its pre-call value; if the output of
`forceSynthesis` fails `JSON.parse`, the call raises the synthesis
failure and performs no session mutation. -/
theorem failed_turns_commit_nothing :
    (∀ (s : Session) (input : SendInput), input.ai = none →
      sendDiscoveryMessage (some s) input
          = Except.error "Failed to process message" ∧
      sendOnSession s input = s) ∧
    (∀ (s : Session) (content : Option String) (now : String),
      jsonParse (forceContentText content) = none →
      forceSynthesis (some s) (some content) now
          = Except.error "Failed to generate synthesis" ∧
      applyOp s (DiscoveryOp.force (some content) now) = s) := by
  constructor
  · intro s input hai
    constructor
    · simp [sendDiscoveryMessage, hai]
    · exact sendOnSession_ai_none s input hai
  · intro s content now hp
    constructor
    · simp [forceSynthesis, hp]
    · simp [applyOp, forceSynthesis, hp]

/-- Claim C6, witness: a thrown model call leaves the row of a fresh session
unchanged, and a `forceSynthesis` whose output is unparseable mutates
nothing. -/
theorem failed_turns_commit_nothing_witness :
    sendOnSession (startDiscoverySession "t0") aiFailInput
        = startDiscoverySession "t0" ∧
    applyOp (startDiscoverySession "t0")
        (DiscoveryOp.force (some (some "not json")) "t1")
        = startDiscoverySession "t0" :=
  ⟨(failed_turns_commit_nothing.1 (startDiscoverySession "t0") aiFailInput rfl).2,
   (failed_turns_commit_nothing.2 (startDiscoverySession "t0") (some "not json")
      "t1" rfl).2⟩

/-- Claim C7: every successful `sendDiscoveryMessage` call grows the
transcript by exactly two messages — one user message followed by one
assistant message — and the pre-call transcript is a strict prefix of
the post-call transcript. -/
theorem sendMessage_appends_two (s : Session) (input : SendInput)
    (h : isOkE (sendDiscoveryMessage (some s) input) = true) :
    (sendOnSession s input).messages.length = s.messages.length + 2 ∧
    s.messages <+: (sendOnSession s input).messages ∧
    s.messages ≠ (sendOnSession s input).messages ∧
    ∃ u a, (sendOnSession s input).messages = s.messages ++ [u, a] ∧
      u.role = "user" ∧ a.role = "assistant" := by
  cases hai : input.ai with
  | none => simp [isOkE, sendDiscoveryMessage, hai] at h
  | some content =>
    have hmsg : (sendOnSession s input).messages =
        s.messages ++
          [{ role := "user", content := input.userMessage,
             timestamp := input.userTimestamp },
           { role := "assistant", content := aiContentOf content,
             timestamp := input.aiTimestamp }] := by
      simp only [sendOnSession, sendDiscoveryMessage, hai, applyPatch]
      split <;> split <;> simp
    refine ⟨?_, ?_, ?_, ?_⟩
    · rw [hmsg]
      simp
    · rw [hmsg]
      exact ⟨_, rfl⟩
    · rw [hmsg]
      intro heq
      have hlen := congrArg List.length heq
      simp at hlen
    · exact ⟨_, _, hmsg, rfl, rfl⟩

/-- Claim C7, witness: one successful send on a fresh session appends
exactly a user and an assistant message. -/
theorem sendMessage_appends_two_witness :
    (sendOnSession (startDiscoverySession "t0") (mkSendInput "hello")).messages.length
        = (startDiscoverySession "t0").messages.length + 2 ∧
    (startDiscoverySession "t0").messages <+:
      (sendOnSession (startDiscoverySession "t0") (mkSendInput "hello")).messages ∧
    (startDiscoverySession "t0").messages ≠
      (sendOnSession (startDiscoverySession "t0") (mkSendInput "hello")).messages ∧
    ∃ u a, (sendOnSession (startDiscoverySession "t0") (mkSendInput "hello")).messages
        = (startDiscoverySession "t0").messages ++ [u, a] ∧
      u.role = "user" ∧ a.role = "assistant" :=
  sendMessage_appends_two (startDiscoverySession "t0") (mkSendInput "hello") rfl

/-- Claim C8 (amended): `skipDiscovery` succeeds in every phase and every
status, setting `status = "skipped"` and `completed_at` to the current
time while leaving messages, phase and the synthesis fields untouched.
Re-skipping an already-skipped session succeeds without error and
changes nothing except `completed_at`, which is refreshed to the new
current time (so it is a no-op only when the two timestamps coincide). -/
theorem skip_sets_status_only (s : Session) (now t1 t2 : String) :
    skipDiscovery (some s) now
        = Except.ok { status := some "skipped", completed_at := some now } ∧
    (applySkip s now).status = "skipped" ∧
    (applySkip s now).completed_at = some now ∧
    (applySkip s now).messages = s.messages ∧
    (applySkip s now).current_phase = s.current_phase ∧
    (applySkip s now).founder_fit = s.founder_fit ∧
    (applySkip s now).refined_prompt = s.refined_prompt ∧
    applySkip (applySkip s t1) t2 = applySkip s t2 :=
  ⟨rfl, rfl, rfl, rfl, rfl, rfl, rfl, rfl⟩

/-- Claim C8, counterexample: re-skipping an already-skipped session at a
later time is not a no-op — the observable `completed_at` changes. -/
theorem reskip_not_noop_cex :
    applySkip (applySkip (startDiscoverySession "t0") "2026-01-06T00:00:00Z")
        "2026-01-07T00:00:00Z"
      ≠ applySkip (startDiscoverySession "t0") "2026-01-06T00:00:00Z" := by
  intro h
  have h2 := congrArg Session.completed_at h
  have h3 : ("2026-01-07T00:00:00Z" : String) = "2026-01-06T00:00:00Z" :=
    Option.some.inj h2
  exact absurd h3 (by decide)

/-- Claim C9: `sendDiscoveryMessage` fails with the session-not-found
error exactly when no session row was fetched; the stored status is never
consulted, so a `completed` or `skipped` session is processed exactly as
an `active` one. -/
theorem sendMessage_guards_existence_only :
    (∀ input, sendDiscoveryMessage none input
        = Except.error "Session not found") ∧
    (∀ (s : Session) (input : SendInput),
      sendDiscoveryMessage (some s) input
          ≠ Except.error "Session not found") ∧
    (∀ (s : Session) (st : String) (input : SendInput),
      sendDiscoveryMessage (some { s with status := st }) input
          = sendDiscoveryMessage (some { s with status := "active" }) input) := by
  refine ⟨fun input => rfl, ?_, fun s st input => rfl⟩
  intro s input h
  cases hai : input.ai with
  | none =>
    rw [show sendDiscoveryMessage (some s) input
        = Except.error "Failed to process message" from by
      simp [sendDiscoveryMessage, hai]] at h
    have := Except.error.inj h
    exact absurd this (by decide)
  | some content =>
    rw [show sendDiscoveryMessage (some s) input
        = sendDiscoveryMessage (some s) input from rfl] at h
    simp [sendDiscoveryMessage, hai] at h

/-- Claim C9, witness: a fresh session is never rejected as not found,
and send behaves identically on a `completed` and an `active` copy of
the same session. -/
theorem sendMessage_guards_existence_only_witness :
    sendDiscoveryMessage (some (startDiscoverySession "t0")) (mkSendInput "hi")
        ≠ Except.error "Session not found" ∧
    sendDiscoveryMessage
        (some { startDiscoverySession "t0" with status := "completed" })
        (mkSendInput "hi")
      = sendDiscoveryMessage
        (some { startDiscoverySession "t0" with status := "active" })
        (mkSendInput "hi") :=
  ⟨sendMessage_guards_existence_only.2.1 (startDiscoverySession "t0")
      (mkSendInput "hi"),
   sendMessage_guards_existence_only.2.2 (startDiscoverySession "t0")
      "completed" (mkSendInput "hi")⟩

theorem tldrOf_null_of_falsy (fp : Json) (htr : truthy fp = true)
    (htl : tldrFalsy fp = true) : tldrOf fp = Json.null := by
  cases fp with
  | null => simp [truthy] at htr
  | bool b => rfl
  | num m e10 => rfl
  | str s => rfl
  | arr l => rfl
  | obj l =>
    unfold tldrOf
    unfold tldrFalsy at htl
    cases hj : jget (Json.obj l) "tldr" with
    | none => simp [hj]
    | some t =>
      rw [hj] at htl
      simp at htl
      simp [hj, htl]

/-- Claim C10 (amended): when a synthesis-phase send completes with an
output whose `fullPrompt` member is truthy, only that sub-object is
persisted as `refined_prompt` (the top-level `tldr` is discarded), and —
provided the sub-object itself carries no truthy `tldr` member, as the
schema shapes it — `getSessionSummary` then returns `tldr = null` and
`fullPrompt` equal to the sub-object. A falsy `fullPrompt` member
instead persists the whole synthesis output. -/
theorem fullPrompt_only_persisted (s : Session) (input : SendInput)
    (text : String) (out fp : Json)
    (hphase : s.current_phase = DiscoveryPhase.synthesis)
    (hai : input.ai = some (some text)) (htext : ¬ text = "")
    (hp : jsonParse text = some out) (hout : truthy out = true)
    (hfp : jget out "fullPrompt" = some fp) (htr : truthy fp = true)
    (htl : tldrFalsy fp = true) :
    (sendOnSession s input).refined_prompt = fp ∧
    (sendOnSession s input).status = "completed" ∧
    ∃ summ, getSessionSummary (some (sendOnSession s input)) = some summ ∧
      summ.tldr = Json.null ∧ summ.fullPrompt = fp := by
  have hct : aiContentOf (some text) = text := by simp [aiContentOf, htext]
  have hrp : refinedPromptOf out = fp := by
    unfold refinedPromptOf
    rw [hfp]
    show (if truthy fp = true then fp else out) = fp
    rw [if_pos htr]
  have hsend_rp : (sendOnSession s input).refined_prompt = fp := by
    simp [sendOnSession, sendDiscoveryMessage, hai, hct, hphase, hp, hout,
      applyPatch, hrp]
  have hst : (sendOnSession s input).status = "completed" := by
    simp [sendOnSession, sendDiscoveryMessage, hai, hct, hphase, hp, hout,
      applyPatch]
  refine ⟨hsend_rp, hst, ?_⟩
  refine ⟨{ tldr := Json.null, fullPrompt := fp,
            founderFit :=
              if truthy (sendOnSession s input).founder_fit = true then
                (sendOnSession s input).founder_fit
              else Json.null,
            messageCount := (sendOnSession s input).messages.length },
          ?_, rfl, rfl⟩
  simp [getSessionSummary, hst, hsend_rp, htr,
    tldrOf_null_of_falsy fp htr htl]

/-- Claim C10, witness: completing with the schema-valid document
persists exactly its `fullPrompt` sub-object, and the summary then has a
null `tldr` and that sub-object as `fullPrompt`. -/
theorem fullPrompt_only_persisted_witness :
    (sendOnSession synSession (mkSendInput (synthesisDoc "7"))).refined_prompt
        = (jget ((jsonParse (synthesisDoc "7")).getD Json.null)
            "fullPrompt").getD Json.null ∧
    (sendOnSession synSession (mkSendInput (synthesisDoc "7"))).status
        = "completed" ∧
    ∃ summ, getSessionSummary
        (some (sendOnSession synSession (mkSendInput (synthesisDoc "7"))))
        = some summ ∧
      summ.tldr = Json.null ∧
      summ.fullPrompt = (jget ((jsonParse (synthesisDoc "7")).getD Json.null)
          "fullPrompt").getD Json.null :=
  fullPrompt_only_persisted synSession (mkSendInput (synthesisDoc "7"))
    (synthesisDoc "7") ((jsonParse (synthesisDoc "7")).getD Json.null)
    ((jget ((jsonParse (synthesisDoc "7")).getD Json.null) "fullPrompt").getD
      Json.null)
    rfl rfl (by decide) rfl rfl rfl rfl rfl

/-- Claim C10, counterexample: a synthesis output that contains a
`fullPrompt` key whose value is `null` completes the session, but the
whole output (not the `fullPrompt` sub-object) is persisted, and the
summary `tldr` is the `tldr` object of the output, not null — refuting
the claim as stated for outputs merely containing a `fullPrompt` key. -/
theorem fullPrompt_key_not_sufficient_cex :
    (sendOnSession synSession (mkSendInput nullFullPromptDoc)).status
        = "completed" ∧
    jget ((jsonParse nullFullPromptDoc).getD Json.null) "fullPrompt"
        = some Json.null ∧
    (sendOnSession synSession (mkSendInput nullFullPromptDoc)).refined_prompt
        = Json.obj [("fullPrompt", Json.null),
                    ("tldr", Json.obj [("a", Json.num 1 0)])] ∧
    (getSessionSummary
        (some (sendOnSession synSession (mkSendInput nullFullPromptDoc)))).map
          SessionSummary.tldr
        = some (Json.obj [("a", Json.num 1 0)]) ∧
    Json.obj [("a", Json.num 1 0)] ≠ Json.null :=
  ⟨rfl, rfl, rfl, rfl, fun hh => Json.noConfusion hh⟩
